import Mathlib

/-!
# Verification of the checkout validation and totals logic

Shallow embedding of the JavaScript checkout core of the e-commerce
prototype (files `js/common.js`, `js/cart.js`, `js/shipping.js`,
`js/validation.js`) and proofs of the specified properties.

Modelling conventions:
* JavaScript numbers are modelled as rationals (`ℚ`).  Every concrete
  arithmetic fact asserted below (in particular `600 * (13/600) = 13`)
  also holds exactly in IEEE-754 double precision, so the rational
  model is faithful for the values appearing in the claims.
* JavaScript strings are modelled as Lean `String` / `List Char`.
* Host-library functions (`JSON.stringify` / `JSON.parse`) that are not
  part of the repository are abstracted as explicit function parameters
  of the storage model; regular-expression tests from the source are
  translated into equivalent executable character-list matchers.
* DOM state touched by the shipping page (radio buttons, `disabled`
  flags, `data-ship-cost` attributes) is modelled as an explicit record.
-/

namespace Checkout

/- ## JavaScript string and number primitives -/

/-- The whitespace class used by JavaScript `\s`, `String.prototype.trim`
and `parseInt`/`parseFloat` (restricted to the ASCII whitespace
characters; the exotic Unicode space characters do not occur in any
input considered here). -/
def jsIsSpace (c : Char) : Bool :=
  c = ' ' || c = '\t' || c = '\n' || c = '\r' || c = '\x0b' || c = '\x0c'

/-- Model of `String.prototype.trim`: remove leading and trailing
whitespace. -/
def jsTrim (s : String) : String :=
  ⟨((s.data.dropWhile jsIsSpace).reverse.dropWhile jsIsSpace).reverse⟩

/-- Numeric value of a decimal digit character. -/
def charVal (c : Char) : ℕ := c.toNat - '0'.toNat

/-- Value of a list of decimal digit characters, most significant first. -/
def digitsToNat (l : List Char) : ℕ :=
  l.foldl (fun acc c => 10 * acc + charVal c) 0

/-- Model of JavaScript `parseInt(s, 10)`: skip leading whitespace, read
an optional sign, then the maximal prefix of decimal digits; `none`
models the `NaN` result when no digit is found. -/
def jsParseIntList (l : List Char) : Option ℤ :=
  let l0 := l.dropWhile jsIsSpace
  let sign : ℤ := if l0.head? = some '-' then -1 else 1
  let l1 := if l0.head? = some '-' ∨ l0.head? = some '+' then l0.tail else l0
  let ds := l1.takeWhile Char.isDigit
  if ds = [] then none
  else some (sign * (digitsToNat ds : ℤ))

/-- `parseInt` on a `String`. -/
def jsParseInt (s : String) : Option ℤ := jsParseIntList s.data

/-- Model of JavaScript `parseFloat(s)`: skip leading whitespace, read an
optional sign, a decimal mantissa (`digits`, `digits.digits` or
`.digits`) and an optional exponent part; `none` models `NaN`. -/
def jsParseFloat (s : String) : Option ℚ :=
  let l := s.data.dropWhile jsIsSpace
  let signAndRest : ℚ × List Char :=
    match l with
    | '-' :: r => (-1, r)
    | '+' :: r => (1, r)
    | _ => (1, l)
  let ip := signAndRest.2.takeWhile Char.isDigit
  let afterInt := signAndRest.2.drop ip.length
  let fracAndRest : List Char × List Char :=
    match afterInt with
    | '.' :: r => (r.takeWhile Char.isDigit, r.drop (r.takeWhile Char.isDigit).length)
    | _ => ([], afterInt)
  let fp := fracAndRest.1
  if ip = [] ∧ fp = [] then none
  else
    let mant : ℚ := signAndRest.1 * ((digitsToNat ip : ℚ) + (digitsToNat fp : ℚ) / 10 ^ fp.length)
    match fracAndRest.2 with
    | e :: r =>
      if e = 'e' || e = 'E' then
        let expSignAndRest : ℤ × List Char :=
          match r with
          | '-' :: rr => (-1, rr)
          | '+' :: rr => (1, rr)
          | _ => (1, r)
        let ed := expSignAndRest.2.takeWhile Char.isDigit
        if ed = [] then some mant
        else some (mant * (10 : ℚ) ^ (expSignAndRest.1 * (digitsToNat ed : ℤ)))
      else some mant
    | [] => some mant

/- ## Totals engine (`js/common.js`, `js/cart.js`) -/

/-- `TAX_RATE = 13 / 600` from `common.js`. -/
def TAX_RATE : ℚ := 13 / 600

/-- The totals record `{ subtotal, taxes, shippingCost, total }`. -/
structure Totals where
  subtotal : ℚ
  taxes : ℚ
  shippingCost : ℚ
  total : ℚ
deriving Repr, DecidableEq

/-- A cart row `{ price, qty }` as read from the DOM by `cart.js`. -/
structure LineItem where
  price : ℚ
  qty : ℚ
deriving Repr, DecidableEq

/-- `cart.reduce((sum, row) => sum + row.price * row.qty, 0)` from
`cart.js`. -/
def cartSubtotal (cart : List LineItem) : ℚ :=
  cart.foldl (fun sum row => sum + row.price * row.qty) 0

/-- `calculateTotals(cart, shippingCost)` from `cart.js`. -/
def calculateTotals (cart : List LineItem) (shippingCost : ℚ) : Totals :=
  let subtotal := cartSubtotal cart
  let taxes := subtotal * TAX_RATE
  let total := subtotal + taxes + shippingCost
  { subtotal := subtotal, taxes := taxes, shippingCost := shippingCost, total := total }

/- Helper lemma: the fold computing the subtotal is the sum of the
per-row products. -/

theorem cartSubtotal_foldl (cart : List LineItem) (a : ℚ) :
    cart.foldl (fun sum row => sum + row.price * row.qty) a
      = a + (cart.map (fun row => row.price * row.qty)).sum := by
  induction cart generalizing a with
  | nil => simp
  | cons r rest ih =>
    simp [List.foldl_cons, ih, List.sum_cons]
    ring

theorem cartSubtotal_eq_sum (cart : List LineItem) :
    cartSubtotal cart = (cart.map (fun row => row.price * row.qty)).sum := by
  simpa using cartSubtotal_foldl cart 0

/-- C1: for every list of line items and every shipping cost, the totals
computation returns `subtotal` = Σ price·qty, `taxes` = subtotal·(13/600)
and `total` = subtotal + taxes + shippingCost; on the concrete cart
`[{price: 600, qty: 1}]` with shipping 0 it yields
`{subtotal: 600, taxes: 13, shippingCost: 0, total: 613}`. -/
theorem c1_totals_correct :
    (∀ (cart : List LineItem) (shippingCost : ℚ),
      (calculateTotals cart shippingCost).subtotal
          = (cart.map (fun row => row.price * row.qty)).sum ∧
      (calculateTotals cart shippingCost).taxes
          = (calculateTotals cart shippingCost).subtotal * (13 / 600) ∧
      (calculateTotals cart shippingCost).shippingCost = shippingCost ∧
      (calculateTotals cart shippingCost).total
          = (calculateTotals cart shippingCost).subtotal
              + (calculateTotals cart shippingCost).taxes + shippingCost) ∧
    calculateTotals [{ price := 600, qty := 1 }] 0
      = { subtotal := 600, taxes := 13, shippingCost := 0, total := 613 } := by
  constructor
  · intro cart shippingCost
    refine ⟨cartSubtotal_eq_sum cart, rfl, rfl, rfl⟩
  · show Totals.mk _ _ _ _ = _
    simp [calculateTotals, cartSubtotal, TAX_RATE]
    norm_num

/- ## Validation module (`js/validation.js`) -/

/-- The `{ valid, message }` record returned by every validator. -/
structure ValidationResult where
  valid : Bool
  message : String
deriving Repr, DecidableEq

namespace ErrorMessages

def required : String := "This field is required"
def firstName : String := "Please enter a valid first name (2-50 letters)"
def lastName : String := "Please enter a valid last name (2-50 letters)"
def email : String := "Please enter a valid email address (e.g., name@example.com)"
def phoneNZ : String := "Please enter a valid NZ phone number (e.g., 021 123 4567 or +64 21 123 4567)"
def phoneAU : String := "Please enter a valid AU phone number"
def phoneUS : String := "Please enter a valid US phone number"
def phoneDefault : String := "Please enter a valid phone number"
def postalCodeNZ : String := "Please enter a valid NZ postal code (4 digits, e.g., 1010)"
def postalCodeAU : String := "Please enter a valid AU postal code (4 digits)"
def postalCodeUS : String := "Please enter a valid US ZIP code (e.g., 12345 or 12345-6789)"
def postalCodeDefault : String := "Please enter a valid postal code"
def address : String := "Please enter a valid address (minimum 5 characters)"
def city : String := "Please enter a valid city name"
def country : String := "Please select a country"
def cardNumber : String := "Please enter a valid card number (13-19 digits)"
def cardExpiry : String := "Please enter a valid expiry date (MM/YY)"
def cardExpiryPast : String := "Card has expired. Please use a valid card"
def cvv : String := "Please enter a valid CVV (3-4 digits on back of card)"
def cardHolder : String := "Please enter the cardholder name as shown on card"
def currency : String := "Please enter a valid positive amount"
def quantity : String := "Please enter a valid quantity (1 or more)"
def quantityMax : String := "Maximum quantity is 99"

end ErrorMessages

/-- `stripNonDigits(value)` from `validation.js`: remove every character
outside `0-9` (JavaScript `\D`), kept as a character list. -/
def stripNonDigits (s : String) : List Char :=
  s.data.filter Char.isDigit

/- ### Helper lemmas about blank strings -/

theorem dropWhile_eq_nil_of_all_mem {p : Char → Bool} {l : List Char}
    (h : ∀ x ∈ l.dropWhile p, p x = true) : l.dropWhile p = [] := by
  induction l with
  | nil => rfl
  | cons a t ih =>
    by_cases ha : p a = true
    · rw [List.dropWhile_cons_of_pos ha] at h ⊢
      exact ih h
    · rw [List.dropWhile_cons_of_neg ha] at h
      exact absurd (h a (by simp)) ha

/-- A string trims to empty exactly when all of its characters are
whitespace. -/
theorem jsTrim_eq_empty_iff (s : String) :
    jsTrim s = "" ↔ ∀ c ∈ s.data, jsIsSpace c = true := by
  constructor
  · intro h
    have hdata : ((s.data.dropWhile jsIsSpace).reverse.dropWhile jsIsSpace).reverse = [] :=
      congrArg String.data h
    rw [List.reverse_eq_nil_iff, List.dropWhile_eq_nil_iff] at hdata
    have hnil : s.data.dropWhile jsIsSpace = [] :=
      dropWhile_eq_nil_of_all_mem fun x hx => hdata x (List.mem_reverse.mpr hx)
    rw [List.dropWhile_eq_nil_iff] at hnil
    exact hnil
  · intro h
    have h1 : s.data.dropWhile jsIsSpace = [] := List.dropWhile_eq_nil_iff.mpr h
    show String.mk _ = _
    rw [h1]
    rfl

/-- Whitespace characters are not decimal digits. -/
theorem jsIsSpace_not_digit {c : Char} (h : jsIsSpace c = true) : c.isDigit = false := by
  revert h
  simp only [jsIsSpace, Bool.or_eq_true, decide_eq_true_eq]
  rintro (((((rfl | rfl) | rfl) | rfl) | rfl) | rfl) <;> decide

/-- A string that trims to empty contains no digit characters, so
stripping non-digits leaves nothing. -/
theorem stripNonDigits_of_blank {s : String} (h : jsTrim s = "") :
    stripNonDigits s = [] := by
  rw [jsTrim_eq_empty_iff] at h
  unfold stripNonDigits
  rw [List.filter_eq_nil_iff]
  intro c hc
  simp [jsIsSpace_not_digit (h c hc)]

/-- One step of the Luhn loop body from `validateCardNumber`: double the
digit when `isEven` is set and subtract 9 when the doubled digit
exceeds 9. -/
def luhnStep (digit : ℕ) (isEven : Bool) : ℕ :=
  if isEven then
    let d := digit * 2
    if d > 9 then d - 9 else d
  else digit

/-- The Luhn accumulation loop of `validateCardNumber`, running over the
digit values least-significant first (the source iterates
`i = digits.length - 1` down to `0`), with the `isEven` flag toggling
after every digit. -/
def luhnLoop : List ℕ → Bool → ℕ
  | [], _ => 0
  | d :: rest, isEven => luhnStep d isEven + luhnLoop rest (!isEven)

/-- `validateCardNumber(cardNumber)` from `validation.js`. -/
def validateCardNumber (cardNumber : String) : ValidationResult :=
  if jsTrim cardNumber = "" then ⟨false, ErrorMessages.required⟩
  else
    let digits := stripNonDigits cardNumber
    if digits.length < 13 ∨ digits.length > 19 then ⟨false, ErrorMessages.cardNumber⟩
    else
      let sum := luhnLoop ((digits.map charVal).reverse) false
      let isValid := sum % 10 == 0
      ⟨isValid, if isValid then "" else ErrorMessages.cardNumber⟩

/-- Spec-side statement of the Luhn doubling rule: on the
least-significant-first digit list, double every second digit starting
with the second one, subtracting 9 from doubled digits exceeding 9. -/
def doubleEverySecond : List ℕ → List ℕ
  | [] => []
  | [d] => [d]
  | d :: e :: rest => d :: (if e * 2 > 9 then e * 2 - 9 else e * 2) :: doubleEverySecond rest

/- The source's accumulation loop computes exactly the sum of the
spec-side adjusted digit list. -/

theorem luhnLoop_eq_doubleEverySecond (l : List ℕ) :
    luhnLoop l false = (doubleEverySecond l).sum := by
  have H : ∀ n (l : List ℕ), l.length ≤ n → luhnLoop l false = (doubleEverySecond l).sum := by
    intro n
    induction n with
    | zero =>
      intro l h
      have : l = [] := List.length_eq_zero.mp (Nat.le_zero.mp h)
      subst this
      rfl
    | succ n ih =>
      intro l h
      match l with
      | [] => rfl
      | [d] => simp [luhnLoop, doubleEverySecond, luhnStep]
      | d :: e :: rest =>
        have hr : rest.length ≤ n := by
          simp only [List.length_cons] at h
          omega
        simp only [luhnLoop, doubleEverySecond, luhnStep, Bool.not_false, Bool.not_true,
          List.sum_cons, ih rest hr, Bool.false_eq_true, Bool.true_eq_false, if_true, if_false,
          eq_self_iff_true]
  exact H l.length l le_rfl

/-- C3: `validateCardNumber` is valid iff the stripped digit string has
length 13–19 and the Luhn checksum (double every second digit from the
least-significant end, adjust digits above 9 by subtracting 9, sum
divisible by 10) holds; it accepts the Visa test number and rejects the
same number with its last digit changed. -/
theorem c3_card_number_luhn :
    (∀ s : String,
      (validateCardNumber s).valid = true ↔
        (13 ≤ (stripNonDigits s).length ∧ (stripNonDigits s).length ≤ 19 ∧
          (doubleEverySecond (((stripNonDigits s).map charVal).reverse)).sum % 10 = 0)) ∧
    (validateCardNumber "4111 1111 1111 1111").valid = true ∧
    validateCardNumber "4111 1111 1111 1112" = ⟨false, ErrorMessages.cardNumber⟩ := by
  refine ⟨?_, by decide, by decide⟩
  intro s
  unfold validateCardNumber
  by_cases h0 : jsTrim s = ""
  · rw [if_pos h0]
    have hd : stripNonDigits s = [] := stripNonDigits_of_blank h0
    simp [hd]
  · rw [if_neg h0]
    by_cases hlen : (stripNonDigits s).length < 13 ∨ (stripNonDigits s).length > 19
    · rw [if_pos hlen]
      constructor
      · intro h; cases h
      · intro h; omega
    · rw [if_neg hlen]
      push_neg at hlen
      simp only [ValidationResult.mk.injEq]
      rw [luhnLoop_eq_doubleEverySecond]
      constructor
      · intro h
        refine ⟨by omega, by omega, by simpa using h⟩
      · intro h
        simpa using h.2.2

/- ## Shipping page (`js/shipping.js`) -/

/-- Which shipping radio button is checked (`shipFree` / `shipNext`);
radio-group semantics allow at most one checked button. -/
inductive ShipChoice
  | free
  | next
deriving Repr, DecidableEq

/-- The `data-ship-cost` attributes of the two shipping radio buttons,
already put through `Number(raw)`: `none` models a missing attribute or
a non-finite parse. -/
structure ShipOptions where
  freeCost : Option ℚ
  nextCost : Option ℚ
deriving Repr, DecidableEq

/-- The DOM state of the shipping page that `shipping.js` manipulates:
the checked radio button, and the `disabled` flag plus dimming class on
the non-free option. -/
structure ShipState where
  selected : Option ShipChoice
  nextDisabled : Bool
  nextDimmed : Bool
deriving Repr, DecidableEq

/-- `getSelectedShippingCost()` from `shipping.js`: the checked option's
`data-ship-cost`, with 0 when nothing is checked or the attribute is not
a finite number. -/
def getSelectedShippingCost (opts : ShipOptions) (st : ShipState) : ℚ :=
  match st.selected with
  | none => 0
  | some ShipChoice.free => (opts.freeCost).getD 0
  | some ShipChoice.next => (opts.nextCost).getD 0

/-- The shipping-page `calculateTotals(shippingCost)` from
`shipping.js`, closed over the page's subtotal. -/
def shipCalculateTotals (subtotal shippingCost : ℚ) : Totals :=
  let taxes := subtotal * TAX_RATE
  let total := subtotal + taxes + shippingCost
  { subtotal := subtotal, taxes := taxes, shippingCost := shippingCost, total := total }

/-- `enforceFreeShippingRule()` from `shipping.js`: when the subtotal
strictly exceeds 600, check the free radio (radio-group semantics
uncheck the other one) and disable/dim the other option; otherwise
re-enable it. -/
def enforceFreeShippingRule (subtotal : ℚ) (st : ShipState) : ShipState :=
  if subtotal > 600 then
    { st with selected := some ShipChoice.free, nextDisabled := true, nextDimmed := true }
  else
    { st with nextDisabled := false, nextDimmed := false }

/-- `recompute()` from `shipping.js` (without the DOM rendering and the
storage write, which do not affect the returned state/totals): enforce
the free-shipping rule, read the selected cost, compute totals. -/
def shipRecompute (subtotal : ℚ) (opts : ShipOptions) (st : ShipState) : ShipState × Totals :=
  let st2 := enforceFreeShippingRule subtotal st
  let shippingCost := getSelectedShippingCost opts st2
  (st2, shipCalculateTotals subtotal shippingCost)

/-- C2: the free-shipping rule triggers iff subtotal strictly exceeds
600.  Above the threshold the free option is force-selected and the
other option disabled; at or below the threshold (including exactly
600) the other option is enabled, the previous selection is untouched,
and the selected option's cost flows verbatim into the totals. -/
theorem c2_free_shipping_threshold :
    ∀ (subtotal : ℚ) (opts : ShipOptions) (st : ShipState),
      (subtotal > 600 →
        (shipRecompute subtotal opts st).1.selected = some ShipChoice.free ∧
        (shipRecompute subtotal opts st).1.nextDisabled = true) ∧
      (subtotal ≤ 600 →
        (shipRecompute subtotal opts st).1.nextDisabled = false ∧
        (shipRecompute subtotal opts st).1.selected = st.selected ∧
        (shipRecompute subtotal opts st).2.shippingCost
          = getSelectedShippingCost opts st) := by
  intro subtotal opts st
  constructor
  · intro h
    simp [shipRecompute, enforceFreeShippingRule, if_pos h]
  · intro h
    have hn : ¬ subtotal > 600 := not_lt.mpr h
    refine ⟨?_, ?_, ?_⟩ <;>
      simp [shipRecompute, enforceFreeShippingRule, shipCalculateTotals,
        getSelectedShippingCost, if_neg hn]

/-- Witness for C2 at subtotals 601 and 600 with the next-day option
selected and a concrete cost table. -/
theorem c2_free_shipping_threshold_witness :
    (shipRecompute 601 ⟨some 0, some 15⟩ ⟨some ShipChoice.next, false, false⟩).1.selected
        = some ShipChoice.free ∧
    (shipRecompute 601 ⟨some 0, some 15⟩ ⟨some ShipChoice.next, false, false⟩).1.nextDisabled
        = true ∧
    (shipRecompute 600 ⟨some 0, some 15⟩ ⟨some ShipChoice.next, false, false⟩).1.nextDisabled
        = false ∧
    (shipRecompute 600 ⟨some 0, some 15⟩ ⟨some ShipChoice.next, false, false⟩).2.shippingCost
        = 15 := by
  have h1 := (c2_free_shipping_threshold 601 ⟨some 0, some 15⟩
    ⟨some ShipChoice.next, false, false⟩).1 (by norm_num)
  have h2 := (c2_free_shipping_threshold 600 ⟨some 0, some 15⟩
    ⟨some ShipChoice.next, false, false⟩).2 (by norm_num)
  refine ⟨h1.1, h1.2, h2.1, ?_⟩
  rw [h2.2.2]
  rfl

/- ## Card expiry validation (`validateCardExpiry` in `validation.js`) -/

/-- The month alternative `(0[1-9]|1[0-2])` of the expiry regex. -/
def monthOk (c1 c2 : Char) : Bool :=
  (c1 = '0' && '1' ≤ c2 && c2 ≤ '9') || (c1 = '1' && '0' ≤ c2 && c2 ≤ '2')

/-- The `\s?\d{2}$` tail of the expiry regex (after the slash). -/
def expiryDigitsTail (l : List Char) : Bool :=
  match l with
  | [d1, d2] => d1.isDigit && d2.isDigit
  | [c, d1, d2] => jsIsSpace c && d1.isDigit && d2.isDigit
  | _ => false

/-- The `\s?\/\s?\d{2}$` tail of the expiry regex (after the month). -/
def expirySlashTail (l : List Char) : Bool :=
  match l with
  | '/' :: rest => expiryDigitsTail rest
  | c :: '/' :: rest => jsIsSpace c && expiryDigitsTail rest
  | _ => false

/-- Executable translation of the expiry regex
`^(0[1-9]|1[0-2])\s?\/\s?\d{2}$` from `validation.js`. -/
def expiryFormat (s : String) : Bool :=
  match s.data with
  | c1 :: c2 :: rest => monthOk c1 c2 && expirySlashTail rest
  | _ => false

/-- `String.prototype.split('/')` on a character list. -/
def splitSlash : List Char → List (List Char)
  | [] => [[]]
  | '/' :: rest => [] :: splitSlash rest
  | c :: rest =>
    match splitSlash rest with
    | [] => [[c]]
    | part :: parts => (c :: part) :: parts

/-- JavaScript `<` on possibly-`NaN` numbers: any comparison with `NaN`
is false. -/
def jsLtI : Option ℤ → Option ℤ → Bool
  | some a, some b => a < b
  | _, _ => false

/-- JavaScript `===` on possibly-`NaN` numbers: `NaN === x` is false. -/
def jsEqI : Option ℤ → Option ℤ → Bool
  | some a, some b => a = b
  | _, _ => false

/-- The month/year pair parsed by `validateCardExpiry`:
`parts = expiry.replace(/\s/g, '').split('/')`, then
`parseInt(parts[0], 10)` and `parseInt('20' + parts[1], 10)` (a missing
`parts[1]` stringifies as "undefined"). -/
def expiryMY (expiry : String) : Option ℤ × Option ℤ :=
  let cleaned := expiry.data.filter (fun c => !jsIsSpace c)
  let parts := splitSlash cleaned
  let month := jsParseIntList (parts.getD 0 [])
  let year := jsParseIntList ('2' :: '0' :: parts.getD 1 "undefined".data)
  (month, year)

/- ### Character facts used by the expiry format analysis -/

theorem char_toNat_le_of_le {a b : Char} (h : a ≤ b) : a.toNat ≤ b.toNat :=
  Char.le_def.mp h

theorem toNat_bounds_of_isDigit {c : Char} (h : c.isDigit = true) :
    48 ≤ c.toNat ∧ c.toNat ≤ 57 := by
  simp only [Char.isDigit, ge_iff_le, Bool.and_eq_true, decide_eq_true_eq] at h
  exact ⟨h.1, h.2⟩

theorem isDigit_of_toNat_bounds {c : Char} (h1 : 48 ≤ c.toNat) (h2 : c.toNat ≤ 57) :
    c.isDigit = true := by
  simp only [Char.isDigit, ge_iff_le, Bool.and_eq_true, decide_eq_true_eq]
  exact ⟨h1, h2⟩

theorem jsIsSpace_toNat {c : Char} (h : jsIsSpace c = true) : c.toNat ≤ 32 := by
  revert h
  simp only [jsIsSpace, Bool.or_eq_true, decide_eq_true_eq]
  rintro (((((rfl | rfl) | rfl) | rfl) | rfl) | rfl) <;> decide

theorem not_space_of_isDigit {c : Char} (h : c.isDigit = true) : jsIsSpace c = false := by
  have hb := toNat_bounds_of_isDigit h
  by_contra hs
  have : jsIsSpace c = true := by
    cases hx : jsIsSpace c
    · exact absurd hx hs
    · rfl
  have := jsIsSpace_toNat this
  omega

theorem ne_slash_of_isDigit {c : Char} (h : c.isDigit = true) : c ≠ '/' := by
  intro he
  subst he
  simp at h

theorem charVal_lt_ten_of_isDigit {c : Char} (h : c.isDigit = true) : charVal c ≤ 9 := by
  have hb := toNat_bounds_of_isDigit h
  have h0 : '0'.toNat = 48 := rfl
  unfold charVal
  omega

/- ### `splitSlash` evaluation lemmas -/

theorem splitSlash_slash_cons (rest : List Char) :
    splitSlash ('/' :: rest) = [] :: splitSlash rest := rfl

theorem splitSlash_cons_of_ne (c : Char) (rest : List Char) (h : ¬ c = '/') :
    splitSlash (c :: rest) =
      match splitSlash rest with
      | [] => [[c]]
      | part :: parts => (c :: part) :: parts := by
  rw [splitSlash.eq_def]
  split
  · rename_i heq
    exact absurd heq (by simp)
  · rename_i rest2 heq
    injection heq with h1 _
    exact absurd h1 h
  · rename_i c2 rest2 hne heq
    injection heq with h1 h2
    subst h1
    subst h2
    rfl

/- ### Parsing all-digit strings -/

theorem takeWhile_eq_self_of_all {p : Char → Bool} {l : List Char}
    (h : ∀ c ∈ l, p c = true) : l.takeWhile p = l := by
  induction l with
  | nil => rfl
  | cons a t ih =>
    rw [List.takeWhile_cons_of_pos (h a (by simp))]
    rw [ih fun c hc => h c (by simp [hc])]

/-- `parseInt` on a nonempty all-digit character list returns its
decimal value. -/
theorem jsParseIntList_digits {l : List Char} (hne : l ≠ [])
    (hd : ∀ c ∈ l, c.isDigit = true) :
    jsParseIntList l = some (digitsToNat l : ℤ) := by
  obtain ⟨a, t, rfl⟩ := List.exists_cons_of_ne_nil hne
  have ha : a.isDigit = true := hd a (by simp)
  have hsp : jsIsSpace a = false := not_space_of_isDigit ha
  have hneg : a ≠ '-' := by
    intro he
    subst he
    exact absurd ha (by decide)
  have hpos : a ≠ '+' := by
    intro he
    subst he
    exact absurd ha (by decide)
  have hdw : (a :: t).dropWhile jsIsSpace = a :: t :=
    List.dropWhile_cons_of_neg (by simp [hsp])
  have htw : (a :: t).takeWhile Char.isDigit = a :: t := takeWhile_eq_self_of_all hd
  unfold jsParseIntList
  simp only [hdw, List.head?_cons, Option.some.injEq]
  rw [if_neg (show ¬(a = '-' ∨ a = '+') by rintro (hx | hx); exacts [hneg hx, hpos hx])]
  rw [htw, if_neg (show ¬(a :: t = []) by simp), if_neg hneg, one_mul]

theorem digitsToNat_pair (c1 c2 : Char) :
    digitsToNat [c1, c2] = 10 * charVal c1 + charVal c2 := by
  simp [digitsToNat, List.foldl]

theorem digitsToNat_year (d1 d2 : Char) :
    digitsToNat ['2', '0', d1, d2] = 2000 + 10 * charVal d1 + charVal d2 := by
  simp [digitsToNat, List.foldl, charVal]
  ring

/- ### Structure of strings accepted by the expiry regex -/

/-- Computation of `expiryMY` once the whitespace-stripped input is
known to be `MM/YY`. -/
theorem expiryMY_of_clean (s : String) (c1 c2 d1 d2 : Char)
    (hclean : s.data.filter (fun c => !jsIsSpace c) = [c1, c2, '/', d1, d2])
    (hc1 : c1 = '0' ∨ c1 = '1') (hc2 : c2.isDigit = true)
    (hd1 : d1.isDigit = true) (hd2 : d2.isDigit = true) :
    expiryMY s = (some ((10 * charVal c1 + charVal c2 : ℕ) : ℤ),
                  some ((2000 + 10 * charVal d1 + charVal d2 : ℕ) : ℤ)) := by
  have hne1 : ¬ c1 = '/' := by rcases hc1 with rfl | rfl <;> decide
  have hne2 : ¬ c2 = '/' := ne_slash_of_isDigit hc2
  have hne3 : ¬ d1 = '/' := ne_slash_of_isDigit hd1
  have hne4 : ¬ d2 = '/' := ne_slash_of_isDigit hd2
  have e4 : splitSlash [d2] = [[d2]] := by
    rw [splitSlash_cons_of_ne d2 [] hne4]
    rfl
  have e3 : splitSlash [d1, d2] = [[d1, d2]] := by
    rw [splitSlash_cons_of_ne d1 [d2] hne3, e4]
  have e1 : splitSlash (c2 :: '/' :: [d1, d2]) = [c2] :: [[d1, d2]] := by
    rw [splitSlash_cons_of_ne c2 ('/' :: [d1, d2]) hne2, splitSlash_slash_cons, e3]
  have e0 : splitSlash [c1, c2, '/', d1, d2] = [[c1, c2], [d1, d2]] := by
    rw [show ([c1, c2, '/', d1, d2] : List Char) = c1 :: (c2 :: '/' :: [d1, d2]) from rfl,
      splitSlash_cons_of_ne c1 _ hne1, e1]
  have hc1d : c1.isDigit = true := by rcases hc1 with rfl | rfl <;> decide
  have hm : jsParseIntList [c1, c2] = some (digitsToNat [c1, c2] : ℤ) :=
    jsParseIntList_digits (by simp) (by
      intro c hc
      simp only [List.mem_cons, List.mem_singleton] at hc
      rcases hc with rfl | rfl | hc
      · exact hc1d
      · exact hc2
      · simp at hc)
  have hy : jsParseIntList ['2', '0', d1, d2] = some (digitsToNat ['2', '0', d1, d2] : ℤ) :=
    jsParseIntList_digits (by simp) (by
      intro c hc
      simp only [List.mem_cons, List.mem_singleton] at hc
      rcases hc with rfl | rfl | rfl | rfl | hc
      · decide
      · decide
      · exact hd1
      · exact hd2
      · simp at hc)
  unfold expiryMY
  simp only [hclean, e0, List.getD_cons_zero, List.getD_cons_succ,
    hm, hy, digitsToNat_pair, digitsToNat_year]

/-- Inversion for the `\s?\d{2}$` tail matcher. -/
theorem expiryDigitsTail_structure {l : List Char} (h : expiryDigitsTail l = true) :
    (∃ d1 d2, l = [d1, d2] ∧ d1.isDigit = true ∧ d2.isDigit = true) ∨
    (∃ c d1 d2, l = [c, d1, d2] ∧ jsIsSpace c = true ∧
      d1.isDigit = true ∧ d2.isDigit = true) := by
  rw [expiryDigitsTail.eq_def] at h
  split at h
  · rename_i d1 d2
    rw [Bool.and_eq_true] at h
    exact Or.inl ⟨d1, d2, rfl, h.1, h.2⟩
  · rename_i c d1 d2
    rw [Bool.and_eq_true, Bool.and_eq_true] at h
    exact Or.inr ⟨c, d1, d2, rfl, h.1.1, h.1.2, h.2⟩
  · exact absurd h (by simp)

/-- Inversion for the `\s?\/\s?\d{2}$` tail matcher. -/
theorem expirySlashTail_structure {l : List Char} (h : expirySlashTail l = true) :
    (∃ r, l = '/' :: r ∧ expiryDigitsTail r = true) ∨
    (∃ c r, l = c :: '/' :: r ∧ jsIsSpace c = true ∧ expiryDigitsTail r = true) := by
  rw [expirySlashTail.eq_def] at h
  split at h
  · rename_i r
    exact Or.inl ⟨r, rfl, h⟩
  · rename_i c r hcne
    rw [Bool.and_eq_true] at h
    exact Or.inr ⟨c, r, rfl, h.1, h.2⟩
  · exact absurd h (by simp)

/-- Every string accepted by the expiry regex parses to a month in 1–12
and a year 2000–2099. -/
theorem expiryFormat_structure {s : String} (h : expiryFormat s = true) :
    ∃ m yy : ℤ, expiryMY s = (some m, some yy) ∧
      1 ≤ m ∧ m ≤ 12 ∧ 2000 ≤ yy ∧ yy ≤ 2099 := by
  unfold expiryFormat at h
  split at h
  case h_2 => exact absurd h (by simp)
  case h_1 c1 c2 rest heq =>
  rw [Bool.and_eq_true] at h
  obtain ⟨hm, ht⟩ := h
  -- month facts
  have hmonth : (c1 = '0' ∧ '1' ≤ c2 ∧ c2 ≤ '9') ∨ (c1 = '1' ∧ '0' ≤ c2 ∧ c2 ≤ '2') := by
    revert hm
    unfold monthOk
    simp only [Bool.or_eq_true, Bool.and_eq_true, decide_eq_true_eq]
    tauto
  have hc1 : c1 = '0' ∨ c1 = '1' := by tauto
  have hc2 : c2.isDigit = true := by
    rcases hmonth with ⟨_, h1, h2⟩ | ⟨_, h1, h2⟩
    · have t1 : (49 : ℕ) ≤ c2.toNat := char_toNat_le_of_le h1
      have t2 : c2.toNat ≤ (57 : ℕ) := char_toNat_le_of_le h2
      exact isDigit_of_toNat_bounds (by omega) (by omega)
    · have t1 : (48 : ℕ) ≤ c2.toNat := char_toNat_le_of_le h1
      have t2 : c2.toNat ≤ (50 : ℕ) := char_toNat_le_of_le h2
      exact isDigit_of_toNat_bounds (by omega) (by omega)
  have hmb : 1 ≤ 10 * charVal c1 + charVal c2 ∧ 10 * charVal c1 + charVal c2 ≤ 12 := by
    have h48 : '0'.toNat = 48 := rfl
    rcases hmonth with ⟨he, h1, h2⟩ | ⟨he, h1, h2⟩ <;> subst he
    · have t1 : (49 : ℕ) ≤ c2.toNat := char_toNat_le_of_le h1
      have t2 : c2.toNat ≤ (57 : ℕ) := char_toNat_le_of_le h2
      have h49 : '0'.toNat = 48 := rfl
      unfold charVal
      omega
    · have t1 : (48 : ℕ) ≤ c2.toNat := char_toNat_le_of_le h1
      have t2 : c2.toNat ≤ (50 : ℕ) := char_toNat_le_of_le h2
      have h49 : '1'.toNat = 49 := rfl
      unfold charVal
      omega
  -- decompose the tail
  unfold expirySlashTail at ht
  have hslash : jsIsSpace '/' = false := by decide
  have hcs1 : jsIsSpace c1 = false := by rcases hc1 with rfl | rfl <;> decide
  have hcs2 : jsIsSpace c2 = false := not_space_of_isDigit hc2
  -- helper to finish each branch
  have finish : ∀ (d1 d2 : Char), d1.isDigit = true → d2.isDigit = true →
      s.data.filter (fun c => !jsIsSpace c) = [c1, c2, '/', d1, d2] →
      ∃ m yy : ℤ, expiryMY s = (some m, some yy) ∧
        1 ≤ m ∧ m ≤ 12 ∧ 2000 ≤ yy ∧ yy ≤ 2099 := by
    intro d1 d2 hd1 hd2 hclean
    have hb1 := charVal_lt_ten_of_isDigit hd1
    have hb2 := charVal_lt_ten_of_isDigit hd2
    refine ⟨_, _, expiryMY_of_clean s c1 c2 d1 d2 hclean hc1 hc2 hd1 hd2, ?_, ?_, ?_, ?_⟩ <;>
      omega
  rcases expirySlashTail_structure ht with ⟨r, heqr, hdt⟩ | ⟨sp, r, heqr, hsp0, hdt⟩ <;>
    rcases expiryDigitsTail_structure hdt with
      ⟨d1, d2, heqd, hd1, hd2⟩ | ⟨sp2, d1, d2, heqd, hsp2, hd1, hd2⟩ <;>
    · refine finish d1 d2 hd1 hd2 ?_
      rw [heq, heqr, heqd]
      simp [List.filter_cons, hcs1, hcs2, hslash,
        not_space_of_isDigit hd1, not_space_of_isDigit hd2, *]

/-- `validateCardExpiry(expiry)` from `validation.js`, with the wall
clock (`new Date()`: current year and 1-based current month) passed
explicitly. -/
def validateCardExpiry (currentYear currentMonth : ℤ) (expiry : String) : ValidationResult :=
  if jsTrim expiry = "" then ⟨false, ErrorMessages.required⟩
  else if !expiryFormat expiry then ⟨false, ErrorMessages.cardExpiry⟩
  else
    let my := expiryMY expiry
    if jsLtI my.2 (some currentYear)
        || (jsEqI my.2 (some currentYear) && jsLtI my.1 (some currentMonth)) then
      ⟨false, ErrorMessages.cardExpiryPast⟩
    else if jsLtI (some (currentYear + 10)) my.2 then
      ⟨false, ErrorMessages.cardExpiry⟩
    else ⟨true, ""⟩

/-- A string accepted by the expiry regex does not trim to empty. -/
theorem expiryFormat_not_blank {s : String} (h : expiryFormat s = true) : jsTrim s ≠ "" := by
  intro hb
  rw [jsTrim_eq_empty_iff] at hb
  unfold expiryFormat at h
  split at h
  · rename_i c1 c2 rest heq
    rw [Bool.and_eq_true] at h
    have hc1 : c1 = '0' ∨ c1 = '1' := by
      have hm := h.1
      revert hm
      unfold monthOk
      simp only [Bool.or_eq_true, Bool.and_eq_true, decide_eq_true_eq]
      tauto
    have hmem : c1 ∈ s.data := by
      rw [heq]
      simp
    have hsp := hb c1 hmem
    rcases hc1 with rfl | rfl <;> exact absurd hsp (by decide)
  · exact absurd h (by simp)

/-- C4 counterexample: with the clock fixed at January 2020, the expiry
"12/30" denotes December 2030 — more than 10 years in the future at
month granularity (131 months > 120) — yet `validateCardExpiry` accepts
it, where the claim requires the format-message rejection. -/
theorem c4_expiry_counterexample :
    (12 * 2030 + 12 : ℤ) > (12 * 2020 + 1) + 120 ∧
    expiryMY "12/30" = (some 12, some 2030) ∧
    validateCardExpiry 2020 1 "12/30" = ⟨true, ""⟩ := by
  refine ⟨by norm_num, by decide, by decide⟩

/-- C4 (amended): empty/whitespace expiry strings fail with the required
message; other strings not matching `MM/YY` (optional single spaces
around the slash, month 01–12) fail with the format message; matching
strings parse to month `m` (1–12) and year `yy = 2000 + YY`, fail with
the distinct expired message when (yy, m) is strictly before the
current (year, month) at month granularity, fail with the format
message when yy exceeds the current year plus 10 (the 10-year bound is
at year granularity, ignoring months), and are valid otherwise. -/
theorem c4_expiry_amended :
    ∀ (cy cm : ℤ) (s : String),
      (jsTrim s = "" → validateCardExpiry cy cm s = ⟨false, ErrorMessages.required⟩) ∧
      (jsTrim s ≠ "" → expiryFormat s = false →
        validateCardExpiry cy cm s = ⟨false, ErrorMessages.cardExpiry⟩) ∧
      (expiryFormat s = true →
        ∃ m yy : ℤ, expiryMY s = (some m, some yy) ∧
          1 ≤ m ∧ m ≤ 12 ∧ 2000 ≤ yy ∧ yy ≤ 2099 ∧
          validateCardExpiry cy cm s =
            (if yy < cy ∨ (yy = cy ∧ m < cm) then ⟨false, ErrorMessages.cardExpiryPast⟩
             else if cy + 10 < yy then ⟨false, ErrorMessages.cardExpiry⟩
             else ⟨true, ""⟩)) := by
  intro cy cm s
  refine ⟨?_, ?_, ?_⟩
  · intro h
    unfold validateCardExpiry
    rw [if_pos h]
  · intro h1 h2
    unfold validateCardExpiry
    rw [if_neg h1, h2]
    rfl
  · intro hf
    obtain ⟨m, yy, hmy, hb1, hb2, hb3, hb4⟩ := expiryFormat_structure hf
    refine ⟨m, yy, hmy, hb1, hb2, hb3, hb4, ?_⟩
    unfold validateCardExpiry
    rw [if_neg (expiryFormat_not_blank hf), hf, Bool.not_true,
      if_neg (show ¬(false = true) by simp)]
    simp only [hmy]
    simp only [jsLtI, jsEqI, Bool.or_eq_true, Bool.and_eq_true, decide_eq_true_eq]

/-- Witness for the amended C4 at a fixed clock (October 2026): a blank
string is "required", a malformed string gets the format message, and a
valid in-window expiry passes. -/
theorem c4_expiry_amended_witness :
    validateCardExpiry 2026 10 " " = ⟨false, ErrorMessages.required⟩ ∧
    validateCardExpiry 2026 10 "1/25" = ⟨false, ErrorMessages.cardExpiry⟩ ∧
    validateCardExpiry 2026 10 "12/35" = ⟨true, ""⟩ := by
  refine ⟨(c4_expiry_amended 2026 10 " ").1 (by decide),
    (c4_expiry_amended 2026 10 "1/25").2.1 (by decide) (by decide), ?_⟩
  obtain ⟨m, yy, hmy, _, _, _, _, hval⟩ := (c4_expiry_amended 2026 10 "12/35").2.2 (by decide)
  have heval : expiryMY "12/35" = (some 12, some 2035) := by decide
  rw [hmy] at heval
  injection heval with e1 e2
  injection e1 with e1
  injection e2 with e2
  subst e1
  subst e2
  rw [if_neg (by norm_num), if_neg (by norm_num)] at hval
  exact hval

/- ## Remaining field validators (`js/validation.js`) -/

/-- The character class `[a-zA-Z0-9._%+-]` of the email regex's local
part. -/
def emailLocalChar (c : Char) : Bool :=
  c.isAlpha || c.isDigit || c = '.' || c = '_' || c = '%' || c = '+' || c = '-'

/-- The character class `[a-zA-Z0-9.-]` of the email regex's domain
part. -/
def emailDomainChar (c : Char) : Bool :=
  c.isAlpha || c.isDigit || c = '.' || c = '-'

/-- The `[a-zA-Z0-9.-]+\.[a-zA-Z]{2,}$` part of the email regex, applied
after the `@`.  Backtracking is resolved at the last dot: any other
split would put a dot inside the letters-only TLD. -/
def emailDomainPattern (l : List Char) : Bool :=
  let q := l.reverse.span (fun c => c != '.')
  match q.2 with
  | [] => false
  | _ :: domR =>
    decide (2 ≤ q.1.length) && q.1.all Char.isAlpha && !domR.isEmpty && domR.all emailDomainChar

/-- Executable translation of the email regex
`^[a-zA-Z0-9._%+-]+@[a-zA-Z0-9.-]+\.[a-zA-Z]{2,}$`; since neither
character class contains `@`, the split is at the first `@`. -/
def emailPattern (l : List Char) : Bool :=
  let p := l.span (fun c => c != '@')
  match p.2 with
  | [] => false
  | _ :: dom => !p.1.isEmpty && p.1.all emailLocalChar && emailDomainPattern dom

/-- `validateEmail(email)` from `validation.js`. -/
def validateEmail (email : String) : ValidationResult :=
  if jsTrim email = "" then ⟨false, ErrorMessages.required⟩
  else
    let isValid := emailPattern (jsTrim email).data
    ⟨isValid, if isValid then "" else ErrorMessages.email⟩

/-- The `fieldType` argument of `validateName` (each value is a key
present in the message table, so the `|| ErrorMessages.firstName`
fallback of the source is unreachable). -/
inductive NameField
  | firstName
  | lastName
  | cardHolder
deriving Repr, DecidableEq

def nameFieldMessage : NameField → String
  | NameField.firstName => ErrorMessages.firstName
  | NameField.lastName => ErrorMessages.lastName
  | NameField.cardHolder => ErrorMessages.cardHolder

/-- The character class `[A-Za-zÀ-ÿ\s\-']` of the name regex (the final
disjunct is the apostrophe, U+0027). -/
def nameChar (c : Char) : Bool :=
  ('A' ≤ c && c ≤ 'Z') || ('a' ≤ c && c ≤ 'z') || ('À' ≤ c && c ≤ 'ÿ') ||
    jsIsSpace c || c = '-' || c.toNat = 39

/-- The name regex `^[A-Za-zÀ-ÿ\s\-']{2,50}$`. -/
def namePattern (l : List Char) : Bool :=
  l.all nameChar && decide (2 ≤ l.length) && decide (l.length ≤ 50)

/-- `validateName(name, fieldType)` from `validation.js`. -/
def validateName (name : String) (fieldType : NameField) : ValidationResult :=
  if jsTrim name = "" then ⟨false, ErrorMessages.required⟩
  else
    let isValid := namePattern (jsTrim name).data
    ⟨isValid, if isValid then "" else nameFieldMessage fieldType⟩

/-- The country codes distinguished by the phone/postal validators;
`other` stands for any country without a dedicated pattern. -/
inductive Country
  | NZ
  | AU
  | US
  | other
deriving Repr, DecidableEq

/-- `[2-9]` in the phone regexes. -/
def digit29 (c : Char) : Bool := '2' ≤ c && c ≤ '9'

/-- `[2-9]\d{7,9}$` — the tail of the NZ phone regex. -/
def nzPhoneTail (l : List Char) : Bool :=
  match l with
  | c :: ds =>
    digit29 c && ds.all Char.isDigit && decide (7 ≤ ds.length) && decide (ds.length ≤ 9)
  | [] => false

/-- The NZ phone regex `^(\+?64|0)[2-9]\d{7,9}$`. -/
def nzPhonePattern (l : List Char) : Bool :=
  match l with
  | '+' :: '6' :: '4' :: r => nzPhoneTail r
  | '6' :: '4' :: r => nzPhoneTail r
  | '0' :: r => nzPhoneTail r
  | _ => false

/-- `[2-9]\d{8}$` — the tail of the AU phone regex. -/
def auPhoneTail (l : List Char) : Bool :=
  match l with
  | c :: ds => digit29 c && ds.all Char.isDigit && decide (ds.length = 8)
  | [] => false

/-- The AU phone regex `^(\+?61|0)[2-9]\d{8}$`. -/
def auPhonePattern (l : List Char) : Bool :=
  match l with
  | '+' :: '6' :: '1' :: r => auPhoneTail r
  | '6' :: '1' :: r => auPhoneTail r
  | '0' :: r => auPhoneTail r
  | _ => false

/-- `[2-9]\d{2}[2-9]\d{6}$` — the body of the US phone regex. -/
def usPhoneCore (l : List Char) : Bool :=
  match l with
  | a :: b :: c :: d :: rest =>
    digit29 a && b.isDigit && c.isDigit && digit29 d &&
      rest.all Char.isDigit && decide (rest.length = 6)
  | _ => false

/-- The US phone regex `^(\+?1)?[2-9]\d{2}[2-9]\d{6}$` (the optional
`1` prefix cannot overlap the `[2-9]` body start). -/
def usPhonePattern (l : List Char) : Bool :=
  match l with
  | '+' :: '1' :: r => usPhoneCore r
  | '1' :: r => usPhoneCore r
  | _ => usPhoneCore l

/-- The generic fallback phone regex `^[\d\s\-\+\(\)]{8,20}$`. -/
def genericPhoneChar (c : Char) : Bool :=
  c.isDigit || jsIsSpace c || c = '-' || c = '+' || c = '(' || c = ')'

def genericPhonePattern (l : List Char) : Bool :=
  l.all genericPhoneChar && decide (8 ≤ l.length) && decide (l.length ≤ 20)

/-- `phone.replace(/[\s\-\(\)]/g, '')` from `validatePhone`. -/
def stripPhoneJunk (s : String) : List Char :=
  s.data.filter (fun c => !(jsIsSpace c || c = '-' || c = '(' || c = ')'))

/-- `ValidationPatterns.phonePatterns[country] || ValidationPatterns.phone`. -/
def phonePatternFor : Country → (List Char → Bool)
  | Country.NZ => nzPhonePattern
  | Country.AU => auPhonePattern
  | Country.US => usPhonePattern
  | Country.other => genericPhonePattern

/-- `ErrorMessages.phone[country] || ErrorMessages.phone.default`. -/
def phoneMessage : Country → String
  | Country.NZ => ErrorMessages.phoneNZ
  | Country.AU => ErrorMessages.phoneAU
  | Country.US => ErrorMessages.phoneUS
  | Country.other => ErrorMessages.phoneDefault

/-- `validatePhone(phone, country)` from `validation.js`. -/
def validatePhone (phone : String) (country : Country) : ValidationResult :=
  if jsTrim phone = "" then ⟨false, ErrorMessages.required⟩
  else
    let cleanPhone := stripPhoneJunk phone
    let isValid := phonePatternFor country cleanPhone
    ⟨isValid, if isValid then "" else phoneMessage country⟩

/-- The NZ/AU postal regex `^\d{4}$`. -/
def nzauPostalPattern (l : List Char) : Bool :=
  l.all Char.isDigit && decide (l.length = 4)

/-- The US postal regex `^\d{5}(-\d{4})?$`. -/
def usPostalPattern (l : List Char) : Bool :=
  (decide (l.length = 5) && l.all Char.isDigit) ||
  (decide (l.length = 10) && (l.take 5).all Char.isDigit &&
    (l.getD 5 ' ' == '-') && (l.drop 6).all Char.isDigit)

/-- `ValidationPatterns.postalCodes[country]`: `none` models an
unsupported country (pattern lookup yields `undefined`). -/
def postalPatternFor : Country → Option (List Char → Bool)
  | Country.NZ => some nzauPostalPattern
  | Country.AU => some nzauPostalPattern
  | Country.US => some usPostalPattern
  | Country.other => none

/-- `ErrorMessages.postalCode[country] || ErrorMessages.postalCode.default`. -/
def postalMessage : Country → String
  | Country.NZ => ErrorMessages.postalCodeNZ
  | Country.AU => ErrorMessages.postalCodeAU
  | Country.US => ErrorMessages.postalCodeUS
  | Country.other => ErrorMessages.postalCodeDefault

/-- `validatePostalCode(postalCode, country)` from `validation.js`. -/
def validatePostalCode (postalCode : String) (country : Country) : ValidationResult :=
  if jsTrim postalCode = "" then ⟨false, ErrorMessages.required⟩
  else
    let cleanCode := (jsTrim postalCode).data.map Char.toUpper
    match postalPatternFor country with
    | none => ⟨true, ""⟩
    | some pat =>
      let isValid := pat cleanCode
      ⟨isValid, if isValid then "" else postalMessage country⟩

/-- `validateAddress(address)` from `validation.js`. -/
def validateAddress (address : String) : ValidationResult :=
  if jsTrim address = "" then ⟨false, ErrorMessages.required⟩
  else
    let isValid := decide (5 ≤ (jsTrim address).data.length)
    ⟨isValid, if isValid then "" else ErrorMessages.address⟩

/-- `validateCity(city)` from `validation.js`. -/
def validateCity (city : String) : ValidationResult :=
  if jsTrim city = "" then ⟨false, ErrorMessages.required⟩
  else
    let isValid := namePattern (jsTrim city).data
    ⟨isValid, if isValid then "" else ErrorMessages.city⟩

/-- The card classifications produced by `detectCardType`. -/
inductive CardType
  | visa
  | mastercard
  | amex
  | discover
  | unknown
deriving Repr, DecidableEq

/-- `validateCVV(cvv, cardType)` from `validation.js`.  The computed
`expectedLength` is never used by the validity check, exactly as in the
source. -/
def validateCVV (cvv : String) (cardType : CardType) : ValidationResult :=
  if jsTrim cvv = "" then ⟨false, ErrorMessages.required⟩
  else
    let digits := stripNonDigits cvv
    let expectedLength : ℕ := if cardType = CardType.amex then 4 else 3
    let isValid := decide (3 ≤ digits.length) && decide (digits.length ≤ 4) &&
      (!digits.isEmpty && digits.all Char.isDigit)
    ⟨isValid, if isValid then "" else ErrorMessages.cvv⟩

/-- `validateCurrency(amount)` from `validation.js` (string input; the
`null`/`undefined` guards of the source collapse onto the empty
string). -/
def validateCurrency (amount : String) : ValidationResult :=
  if amount = "" then ⟨false, ErrorMessages.required⟩
  else
    match jsParseFloat amount with
    | none => ⟨false, ErrorMessages.currency⟩
    | some value =>
      if value < 0 then ⟨false, ErrorMessages.currency⟩ else ⟨true, ""⟩

/-- `validateQuantity(quantity)` from `validation.js`. -/
def validateQuantity (quantity : String) : ValidationResult :=
  if quantity = "" then ⟨false, ErrorMessages.required⟩
  else
    match jsParseInt quantity with
    | none => ⟨false, ErrorMessages.quantity⟩
    | some value =>
      if value < 1 then ⟨false, ErrorMessages.quantity⟩
      else if value > 99 then ⟨false, ErrorMessages.quantityMax⟩
      else ⟨true, ""⟩

/- ### Blank-input behaviour of the numeric parsers -/

theorem dropWhile_space_of_blank {s : String} (h : jsTrim s = "") :
    s.data.dropWhile jsIsSpace = [] :=
  List.dropWhile_eq_nil_iff.mpr ((jsTrim_eq_empty_iff s).mp h)

theorem jsParseFloat_of_blank {s : String} (h : jsTrim s = "") : jsParseFloat s = none := by
  unfold jsParseFloat
  rw [dropWhile_space_of_blank h]
  rfl

theorem jsParseInt_of_blank {s : String} (h : jsTrim s = "") : jsParseInt s = none := by
  unfold jsParseInt jsParseIntList
  rw [dropWhile_space_of_blank h]
  rfl

/-- C5 counterexample: `validateCurrency` on a whitespace-only (but
non-empty) input returns the field-specific currency message, not the
required message. -/
theorem c5_required_counterexample :
    validateCurrency " " = ⟨false, ErrorMessages.currency⟩ ∧
    ErrorMessages.currency ≠ ErrorMessages.required := by
  exact ⟨by decide, by decide⟩

/-- C5 (amended): every trim-based validator (email, name, phone,
postal code, address, city, card number, card expiry, CVV) returns the
required message on empty or whitespace-only input; `validateCurrency`
and `validateQuantity` return the required message exactly on the empty
string, while whitespace-only non-empty input parses as NaN and draws
their field-specific messages instead. -/
theorem c5_required_amended :
    (∀ s, jsTrim s = "" → validateEmail s = ⟨false, ErrorMessages.required⟩) ∧
    (∀ s f, jsTrim s = "" → validateName s f = ⟨false, ErrorMessages.required⟩) ∧
    (∀ s c, jsTrim s = "" → validatePhone s c = ⟨false, ErrorMessages.required⟩) ∧
    (∀ s c, jsTrim s = "" → validatePostalCode s c = ⟨false, ErrorMessages.required⟩) ∧
    (∀ s, jsTrim s = "" → validateAddress s = ⟨false, ErrorMessages.required⟩) ∧
    (∀ s, jsTrim s = "" → validateCity s = ⟨false, ErrorMessages.required⟩) ∧
    (∀ s, jsTrim s = "" → validateCardNumber s = ⟨false, ErrorMessages.required⟩) ∧
    (∀ cy cm s, jsTrim s = "" → validateCardExpiry cy cm s = ⟨false, ErrorMessages.required⟩) ∧
    (∀ s t, jsTrim s = "" → validateCVV s t = ⟨false, ErrorMessages.required⟩) ∧
    validateCurrency "" = ⟨false, ErrorMessages.required⟩ ∧
    validateQuantity "" = ⟨false, ErrorMessages.required⟩ ∧
    (∀ s, s ≠ "" → jsTrim s = "" →
      validateCurrency s = ⟨false, ErrorMessages.currency⟩ ∧
      validateQuantity s = ⟨false, ErrorMessages.quantity⟩) := by
  refine ⟨fun s h => by simp [validateEmail, h],
    fun s f h => by simp [validateName, h],
    fun s c h => by simp [validatePhone, h],
    fun s c h => by simp [validatePostalCode, h],
    fun s h => by simp [validateAddress, h],
    fun s h => by simp [validateCity, h],
    fun s h => by simp [validateCardNumber, h],
    fun cy cm s h => by simp [validateCardExpiry, h],
    fun s t h => by simp [validateCVV, h],
    by decide, by decide, ?_⟩
  intro s hne h
  constructor
  · unfold validateCurrency
    rw [if_neg hne, jsParseFloat_of_blank h]
  · unfold validateQuantity
    rw [if_neg hne, jsParseInt_of_blank h]

/-- Witness for the amended C5: concrete whitespace inputs across all
validators. -/
theorem c5_required_amended_witness :
    validateEmail " " = ⟨false, ErrorMessages.required⟩ ∧
    validateName "\t" NameField.lastName = ⟨false, ErrorMessages.required⟩ ∧
    validatePhone " " Country.NZ = ⟨false, ErrorMessages.required⟩ ∧
    validatePostalCode " " Country.US = ⟨false, ErrorMessages.required⟩ ∧
    validateAddress " " = ⟨false, ErrorMessages.required⟩ ∧
    validateCity " " = ⟨false, ErrorMessages.required⟩ ∧
    validateCardNumber " " = ⟨false, ErrorMessages.required⟩ ∧
    validateCardExpiry 2026 10 " " = ⟨false, ErrorMessages.required⟩ ∧
    validateCVV " " CardType.amex = ⟨false, ErrorMessages.required⟩ ∧
    validateCurrency " " = ⟨false, ErrorMessages.currency⟩ ∧
    validateQuantity " " = ⟨false, ErrorMessages.quantity⟩ := by
  refine ⟨c5_required_amended.1 " " (by decide),
    c5_required_amended.2.1 "\t" NameField.lastName (by decide),
    c5_required_amended.2.2.1 " " Country.NZ (by decide),
    c5_required_amended.2.2.2.1 " " Country.US (by decide),
    c5_required_amended.2.2.2.2.1 " " (by decide),
    c5_required_amended.2.2.2.2.2.1 " " (by decide),
    c5_required_amended.2.2.2.2.2.2.1 " " (by decide),
    c5_required_amended.2.2.2.2.2.2.2.1 2026 10 " " (by decide),
    c5_required_amended.2.2.2.2.2.2.2.2.1 " " CardType.amex (by decide),
    (c5_required_amended.2.2.2.2.2.2.2.2.2.2.2 " " (by decide) (by decide)).1,
    (c5_required_amended.2.2.2.2.2.2.2.2.2.2.2 " " (by decide) (by decide)).2⟩

/- ### Quantity characterization (C6) -/

theorem validateQuantity_none {s : String} (hne : s ≠ "") (hp : jsParseInt s = none) :
    validateQuantity s = ⟨false, ErrorMessages.quantity⟩ := by
  unfold validateQuantity
  rw [if_neg hne, hp]

theorem validateQuantity_some {s : String} {n : ℤ} (hne : s ≠ "") (hp : jsParseInt s = some n) :
    validateQuantity s =
      (if n < 1 then ⟨false, ErrorMessages.quantity⟩
       else if 99 < n then ⟨false, ErrorMessages.quantityMax⟩
       else ⟨true, ""⟩) := by
  unfold validateQuantity
  rw [if_neg hne, hp]

/-- C6: for every non-empty input, `validateQuantity` is valid iff the
parsed integer lies in 1..99; a failed parse or a value below 1 draws
the generic quantity message, a value above 99 the distinct maximum
message; "0" is invalid, "99" valid, "100" maxed out. -/
theorem c6_quantity_range :
    (∀ s : String, s ≠ "" →
      (((validateQuantity s).valid = true) ↔
        (∃ n : ℤ, jsParseInt s = some n ∧ 1 ≤ n ∧ n ≤ 99)) ∧
      (jsParseInt s = none → validateQuantity s = ⟨false, ErrorMessages.quantity⟩) ∧
      (∀ n : ℤ, jsParseInt s = some n → n < 1 →
        validateQuantity s = ⟨false, ErrorMessages.quantity⟩) ∧
      (∀ n : ℤ, jsParseInt s = some n → 99 < n →
        validateQuantity s = ⟨false, ErrorMessages.quantityMax⟩)) ∧
    validateQuantity "0" = ⟨false, ErrorMessages.quantity⟩ ∧
    validateQuantity "99" = ⟨true, ""⟩ ∧
    validateQuantity "100" = ⟨false, ErrorMessages.quantityMax⟩ := by
  refine ⟨?_, by decide, by decide, by decide⟩
  intro s hne
  refine ⟨?_, fun hp => validateQuantity_none hne hp, ?_, ?_⟩
  · cases hp : jsParseInt s with
    | none =>
      rw [validateQuantity_none hne hp]
      simp
    | some n =>
      rw [validateQuantity_some hne hp]
      by_cases h1 : n < 1
      · rw [if_pos h1]
        simp only [Option.some.injEq]
        constructor
        · intro h
          exact absurd h (by simp)
        · rintro ⟨m, hm, hb1, hb2⟩
          omega
      · rw [if_neg h1]
        by_cases h2 : 99 < n
        · rw [if_pos h2]
          simp only [Option.some.injEq]
          constructor
          · intro h
            exact absurd h (by simp)
          · rintro ⟨m, hm, hb1, hb2⟩
            omega
        · rw [if_neg h2]
          simp only [Option.some.injEq]
          constructor
          · intro _
            exact ⟨n, rfl, by omega, by omega⟩
          · intro _
            trivial
  · intro n hp h1
    rw [validateQuantity_some hne hp, if_pos h1]
  · intro n hp h2
    rw [validateQuantity_some hne hp, if_neg (by omega), if_pos h2]

/-- Witness for C6: the general part applied at the concrete input
"50". -/
theorem c6_quantity_range_witness :
    (validateQuantity "50").valid = true := by
  exact ((c6_quantity_range.1 "50" (by decide)).1).mpr ⟨50, by decide, by norm_num, by norm_num⟩

/- ### CVV characterization (C7) -/

theorem stripNonDigits_all_digits (s : String) :
    (stripNonDigits s).all Char.isDigit = true := by
  unfold stripNonDigits
  rw [List.all_eq_true]
  intro c hc
  exact (List.mem_filter.mp hc).2

/-- C7: `validateCVV` is valid iff the input contains exactly 3 or 4
digit characters after stripping non-digits, and the result is entirely
independent of the card type even though the type-specific expected
length is computed. -/
theorem c7_cvv_length_only :
    ∀ (cvv : String) (t t2 : CardType),
      (((validateCVV cvv t).valid = true) ↔
        ((stripNonDigits cvv).length = 3 ∨ (stripNonDigits cvv).length = 4)) ∧
      validateCVV cvv t = validateCVV cvv t2 := by
  intro cvv t t2
  constructor
  · unfold validateCVV
    by_cases hb : jsTrim cvv = ""
    · rw [if_pos hb]
      have hd : stripNonDigits cvv = [] := stripNonDigits_of_blank hb
      simp [hd]
    · rw [if_neg hb]
      have hall := stripNonDigits_all_digits cvv
      simp only [hall, Bool.and_eq_true, decide_eq_true_eq, Bool.not_eq_true',
        List.isEmpty_eq_false, Bool.and_true]
      constructor
      · rintro ⟨⟨h3, h4⟩, _⟩
        omega
      · intro h
        have hne : stripNonDigits cvv ≠ [] := by
          intro he
          rw [he] at h
          simp at h
        exact ⟨⟨by omega, by omega⟩, hne⟩
  · unfold validateCVV
    rfl

/- ## Storage utility (`js/common.js`) -/

/-- The browser's string key-value store (`localStorage`). -/
def Store : Type := String → Option String

/-- `localStorage.setItem(key, value)`. -/
def setItem (store : Store) (key value : String) : Store :=
  fun k => if k = key then some value else store k

/-- `localStorage.getItem(key)` (`none` models `null`). -/
def getItem (store : Store) (key : String) : Option String := store key

/-- `saveToStorage(key, data)` from `common.js`.  The host function
`JSON.stringify` is not part of the repository and is passed explicitly
as `stringify`. -/
def saveToStorage {α : Type} (stringify : α → String) (store : Store)
    (key : String) (data : α) : Store :=
  setItem store key (stringify data)

/-- `loadFromStorage(key, fallback)` from `common.js`.  The host
function `JSON.parse` is passed explicitly as `parse`, with `none`
modelling a thrown parse exception (caught by the source's
`try`/`catch`).  `if raw = ""` mirrors the falsiness test `!raw` on a
present-but-empty string. -/
def loadFromStorage {α : Type} (parse : String → Option α) (store : Store)
    (key : String) (fallback : α) : α :=
  match getItem store key with
  | none => fallback
  | some raw =>
    if raw = "" then fallback
    else
      match parse raw with
      | some v => v
      | none => fallback

theorem loadFromStorage_absent {α : Type} {parse : String → Option α} {store : Store}
    {key : String} {fallback : α} (h : getItem store key = none) :
    loadFromStorage parse store key fallback = fallback := by
  unfold loadFromStorage
  rw [h]

theorem loadFromStorage_present {α : Type} {parse : String → Option α} {store : Store}
    {key : String} {fallback : α} {raw : String} (h : getItem store key = some raw) :
    loadFromStorage parse store key fallback =
      (if raw = "" then fallback
       else
         match parse raw with
         | some v => v
         | none => fallback) := by
  unfold loadFromStorage
  rw [h]

/-- C8: `loadFromStorage` returns the fallback without raising both
when the key is absent and when the stored string does not parse; on a
stored string accepted by the parser (`JSON.parse` rejects the empty
string) it returns the parsed value. -/
theorem c8_load_fallback :
    ∀ (α : Type) (parse : String → Option α) (store : Store) (key : String) (fallback : α),
      (getItem store key = none → loadFromStorage parse store key fallback = fallback) ∧
      (∀ raw, getItem store key = some raw → parse raw = none →
        loadFromStorage parse store key fallback = fallback) ∧
      (parse "" = none →
        ∀ raw v, getItem store key = some raw → parse raw = some v →
          loadFromStorage parse store key fallback = v) := by
  intro α parse store key fallback
  refine ⟨fun h => loadFromStorage_absent h, ?_, ?_⟩
  · intro raw h hp
    rw [loadFromStorage_present h]
    by_cases he : raw = ""
    · rw [if_pos he]
    · rw [if_neg he, hp]
  · intro hemp raw v h hp
    have hne : raw ≠ "" := by
      intro he
      rw [he, hemp] at hp
      cases hp
    rw [loadFromStorage_present h, if_neg hne, hp]

/-- Witness for C8 with a concrete parser and store: absent key,
corrupt value and parseable value. -/
theorem c8_load_fallback_witness :
    loadFromStorage (fun s => if s = "7" then some (7 : ℕ) else none)
      (fun _ => none) "cpa_totals" 0 = 0 ∧
    loadFromStorage (fun s => if s = "7" then some (7 : ℕ) else none)
      (fun k => if k = "cpa_totals" then some "junk" else none) "cpa_totals" 0 = 0 ∧
    loadFromStorage (fun s => if s = "7" then some (7 : ℕ) else none)
      (fun k => if k = "cpa_totals" then some "7" else none) "cpa_totals" 0 = 7 := by
  refine ⟨(c8_load_fallback ℕ _ _ "cpa_totals" 0).1 rfl,
    (c8_load_fallback ℕ _ _ "cpa_totals" 0).2.1 "junk" (by decide) (by decide),
    (c8_load_fallback ℕ _ _ "cpa_totals" 0).2.2 (by decide) "7" 7 (by decide) (by decide)⟩

/-- C9: saving a `Totals` record and reading the same key back returns
identical field values, given that the host JSON codec round-trips the
record (the claim's own proviso) and produces a non-empty string (any
`JSON.stringify` output is non-empty). -/
theorem c9_totals_roundtrip :
    ∀ (stringify : Totals → String) (parse : String → Option Totals)
      (store : Store) (key : String) (fallback t : Totals),
      parse (stringify t) = some t → stringify t ≠ "" →
      loadFromStorage parse (saveToStorage stringify store key t) key fallback = t := by
  intro stringify parse store key fallback t hrt hne
  have hget : getItem (saveToStorage stringify store key t) key = some (stringify t) := by
    unfold saveToStorage setItem getItem
    simp
  rw [loadFromStorage_present hget, if_neg hne, hrt]

/-- The constant codec used by the C9 witness. -/
def witnessStringify : Totals → String := fun _ => "T"

/-- The matching parser used by the C9 witness. -/
def witnessParse : String → Option Totals :=
  fun s => if s = "T" then some ⟨600, 13, 0, 613⟩ else none

/-- Witness for C9 with a concrete codec and the wireframe totals. -/
theorem c9_totals_roundtrip_witness :
    loadFromStorage witnessParse
      (saveToStorage witnessStringify (fun _ => none) "cpa_totals" ⟨600, 13, 0, 613⟩)
      "cpa_totals" ⟨0, 0, 0, 0⟩ = ⟨600, 13, 0, 613⟩ :=
  c9_totals_roundtrip witnessStringify witnessParse
    (fun _ => none) "cpa_totals" ⟨0, 0, 0, 0⟩ ⟨600, 13, 0, 613⟩ (by decide) (by decide)

/- ## `parseCurrency` (`js/common.js`) -/

/-- Model of JS `Number()` restricted to strings of digits and dots —
the only characters surviving `parseCurrency`'s cleaning step.  The
empty string is 0; otherwise the string must contain at least one digit
and at most one dot; anything else is `NaN` (`none`).  Overflow to
`Infinity` cannot occur in the rational model (the source maps it to 0
through its `Number.isFinite` check anyway). -/
def numberOfDigitsDots (l : List Char) : Option ℚ :=
  if l = [] then some 0
  else
    let intPart := l.takeWhile Char.isDigit
    let rest := l.drop intPart.length
    match rest with
    | [] => some (digitsToNat intPart : ℚ)
    | '.' :: frac =>
      if frac.all Char.isDigit ∧ (intPart ≠ [] ∨ frac ≠ []) then
        some ((digitsToNat intPart : ℚ) + (digitsToNat frac : ℚ) / 10 ^ frac.length)
      else none
    | _ => none

/-- `parseCurrency(text)` from `common.js`; `none` models a `null`
argument (the `!text` test also catches the empty string). -/
def parseCurrency (text : Option String) : ℚ :=
  match text with
  | none => 0
  | some t =>
    if t = "" then 0
    else
      let cleaned := t.data.filter (fun c => c.isDigit || c = '.')
      match numberOfDigitsDots cleaned with
      | some numberVal => numberVal
      | none => 0

theorem parseCurrency_some_eq (t : String) :
    parseCurrency (some t) =
      (if t = "" then 0
       else
         match numberOfDigitsDots (t.data.filter (fun c => c.isDigit || c = '.')) with
         | some numberVal => numberVal
         | none => 0) := rfl

theorem numberOfDigitsDots_nonneg {l : List Char} {v : ℚ}
    (h : numberOfDigitsDots l = some v) : 0 ≤ v := by
  unfold numberOfDigitsDots at h
  by_cases hl : l = []
  · rw [if_pos hl] at h
    injection h with h
    subst h
    exact le_refl 0
  · rw [if_neg hl] at h
    dsimp only at h
    split at h
    · injection h with h
      subst h
      positivity
    · split at h
      · injection h with h
        subst h
        positivity
      · cases h
    · cases h

/-- A list of dots only is never a parseable number (unless empty). -/
theorem numberOfDigitsDots_all_dots {l : List Char} (hne : l ≠ [])
    (h : ∀ c ∈ l, c = '.') : numberOfDigitsDots l = none := by
  obtain ⟨a, t, rfl⟩ := List.exists_cons_of_ne_nil hne
  have ha : a = '.' := h a (by simp)
  subst ha
  unfold numberOfDigitsDots
  rw [if_neg (by simp)]
  have htk : ('.' :: t).takeWhile Char.isDigit = [] :=
    List.takeWhile_cons_of_neg (by simp)
  rw [htk]
  simp only [List.length_nil, List.drop_zero]
  cases ht : t with
  | nil => simp
  | cons b t2 =>
    have hb : b = '.' := h b (by simp [ht])
    subst hb
    rw [if_neg]
    rintro ⟨hall, -⟩
    have := List.all_eq_true.mp hall '.' (by simp)
    exact absurd this (by decide)

/-- C10: `parseCurrency` always returns a non-negative (finite, in the
rational model) number, and returns 0 on `null`, on the empty string
and on any input without digit characters. -/
theorem c10_parse_currency_safe :
    ∀ text : Option String,
      0 ≤ parseCurrency text ∧
      ((text = none ∨ text = some "" ∨ ∀ c ∈ (text.getD "").data, c.isDigit = false) →
        parseCurrency text = 0) := by
  intro text
  constructor
  · cases text with
    | none => exact le_refl 0
    | some t =>
      rw [parseCurrency_some_eq]
      by_cases he : t = ""
      · rw [if_pos he]
      · rw [if_neg he]
        cases hp : numberOfDigitsDots (t.data.filter (fun c => c.isDigit || c = '.')) with
        | none => exact le_refl 0
        | some v => exact numberOfDigitsDots_nonneg hp
  · intro h
    rcases h with rfl | rfl | h
    · rfl
    · rfl
    · cases text with
      | none => rfl
      | some t =>
        rw [parseCurrency_some_eq]
        by_cases he : t = ""
        · rw [if_pos he]
        · rw [if_neg he]
          simp only [Option.getD_some] at h
          have hdots : ∀ c ∈ t.data.filter (fun c => c.isDigit || c = '.'), c = '.' := by
            intro c hc
            obtain ⟨hmem, hcl⟩ := List.mem_filter.mp hc
            rw [h c hmem] at hcl
            simpa using hcl
          cases hcl : t.data.filter (fun c => c.isDigit || c = '.') with
          | nil => rfl
          | cons a t2 =>
            rw [numberOfDigitsDots_all_dots (by simp) (hcl ▸ hdots)]

/-- Witness for C10 at concrete inputs: `null`, the empty string and
digit-free garbage all give 0. -/
theorem c10_parse_currency_safe_witness :
    parseCurrency none = 0 ∧
    parseCurrency (some "") = 0 ∧
    parseCurrency (some "n/a") = 0 := by
  refine ⟨(c10_parse_currency_safe none).2 (Or.inl rfl),
    (c10_parse_currency_safe (some "")).2 (Or.inr (Or.inl rfl)),
    (c10_parse_currency_safe (some "n/a")).2 (Or.inr (Or.inr (by decide)))⟩

end Checkout
